import Mathlib

/-!
Verification of the job-tracker backend (FastAPI + SQLAlchemy) against its
natural-language specification.  The Python source is shallowly embedded:
the database is a list of rows, each endpoint handler is a pure function
from the request data and the current database to a response together with
the successor database, and the external collaborators (JWT signing,
bcrypt, Redis) are modelled symbolically.  UUIDs are modelled as natural
numbers (the str(uuid) round-trip of the source is the identity here) and
calendar dates / instants as integers.
-/

namespace JobTracker

/-- Lifecycle statuses of a job application
(class ApplicationStatus in app/models/application.py). -/
inductive ApplicationStatus where
  | applied
  | screening
  | interview
  | offer
  | accepted
  | rejected
deriving DecidableEq, Repr

/-- A stored application row: the columns of the applications table declared in
app/models/application.py (id, user_id, company_name, job_title, status,
date_applied, job_url, notes, is_archived, created_at, updated_at).
The request/response schemas in app/api/applications.py additionally mention
follow_up_date and last_contact_date, but those correspond to no column of the
table, hence are not part of the stored record. -/
structure Application where
  id : Nat
  user_id : Nat
  company_name : String
  job_title : String
  status : ApplicationStatus
  date_applied : Int
  job_url : Option String
  notes : Option String
  is_archived : Bool
  created_at : Int
  updated_at : Int
deriving DecidableEq, Repr

/-- A stored user row (class User in app/models/user.py); the role and
timestamp columns play no part in the claims under study and are omitted. -/
structure User where
  id : Nat
  email : String
  hashed_password : String
  full_name : String
deriving DecidableEq, Repr

/-- An HTTPException as raised by the handlers: status code, detail body and
the two response headers the source ever sets. -/
structure HttpError where
  status_code : Nat
  detail : String
  wwwAuthenticate : Option String := none
  retryAfter : Option String := none
deriving DecidableEq, Repr

/-- The 404 error raised by every application endpoint when the row is absent
or owned by a different user (app/api/applications.py). -/
def notFound : HttpError :=
  { status_code := 404, detail := "Application not found" }

/-- The ownership test used by the single-row application endpoints:
Application.id == application_id and Application.user_id == current_user.id. -/
def ownedBy (application_id uid : Nat) (a : Application) : Bool :=
  a.id == application_id && a.user_id == uid

/-- GET /applications/id (get_application in app/api/applications.py):
first row matching id and owner, else 404. -/
def get_application (db : List Application) (application_id uid : Nat) :
    Except HttpError Application :=
  match db.find? (ownedBy application_id uid) with
  | none => .error notFound
  | some a => .ok a

/-- Replace the first element satisfying p by its image under f, leaving the
rest of the list unchanged; models the ORM mutating the single row returned
by query(...).first(). -/
def replaceFirst (p : α → Bool) (f : α → α) : List α → List α
  | [] => []
  | x :: xs => if p x then f x :: xs else x :: replaceFirst p f xs

/-- A partially supplied update payload (schema ApplicationUpdate in
app/api/applications.py, consumed with exclude_unset=True): for the
non-nullable columns a field is either absent or a replacement value, for the
nullable columns job_url and notes a present field carries an Option value so
that an explicit null is distinguished from an absent key. -/
inductive FieldUpd (α : Type) where
  | unset
  | set (value : Option α)
deriving DecidableEq, Repr

/-- The update payload; a none / FieldUpd.unset field was not present in the
request body and is skipped by exclude_unset=True. -/
structure ApplicationUpdate where
  company_name : Option String := none
  job_title : Option String := none
  status : Option ApplicationStatus := none
  date_applied : Option Int := none
  job_url : FieldUpd String := .unset
  notes : FieldUpd String := .unset
deriving Repr

/-- setattr for a non-nullable column: absent field keeps the current value. -/
def applyField (cur : α) : Option α → α
  | none => cur
  | some v => v

/-- setattr for a nullable column: absent field keeps the current value, a
present field overwrites it with the carried Option (an explicit null clears). -/
def applyNullableField (cur : Option α) : FieldUpd α → Option α
  | .unset => cur
  | .set v => v

/-- Effect of the update loop of update_application on one row, together with
the updated_at refresh performed at commit time by the onupdate hook declared
in app/models/application.py. -/
def applyUpdate (a : Application) (u : ApplicationUpdate) (now : Int) : Application :=
  { a with
    company_name := applyField a.company_name u.company_name
    job_title := applyField a.job_title u.job_title
    status := applyField a.status u.status
    date_applied := applyField a.date_applied u.date_applied
    job_url := applyNullableField a.job_url u.job_url
    notes := applyNullableField a.notes u.notes
    updated_at := now }

/-- PUT /applications/id (update_application in app/api/applications.py):
look the row up scoped to the caller, 404 when absent, otherwise apply the
provided fields and commit. -/
def update_application (db : List Application) (application_id uid : Nat)
    (application_data : ApplicationUpdate) (now : Int) :
    Except HttpError Application × List Application :=
  match db.find? (ownedBy application_id uid) with
  | none => (.error notFound, db)
  | some a =>
      (.ok (applyUpdate a application_data now),
       replaceFirst (ownedBy application_id uid)
         (fun b => applyUpdate b application_data now) db)

/-- DELETE /applications/id (delete_application in app/api/applications.py):
look the row up scoped to the caller, 404 when absent, otherwise hard-delete. -/
def delete_application (db : List Application) (application_id uid : Nat) :
    Except HttpError Unit × List Application :=
  match db.find? (ownedBy application_id uid) with
  | none => (.error notFound, db)
  | some _ => (.ok (), db.eraseP (ownedBy application_id uid))

/-- Effect of toggle_archive on one row: flip is_archived; updated_at is
refreshed at commit time by the onupdate hook. -/
def toggleArchived (a : Application) (now : Int) : Application :=
  { a with is_archived := !a.is_archived, updated_at := now }

/-- PATCH /applications/id/archive (toggle_archive in
app/api/applications.py): look the row up scoped to the caller, 404 when
absent, otherwise flip the archived flag and commit. -/
def toggle_archive (db : List Application) (application_id uid : Nat) (now : Int) :
    Except HttpError Application × List Application :=
  match db.find? (ownedBy application_id uid) with
  | none => (.error notFound, db)
  | some a =>
      (.ok (toggleArchived a now),
       replaceFirst (ownedBy application_id uid) (fun b => toggleArchived b now) db)

/-- The decoded claims of a JWT: the sub claim (a user identifier, possibly
absent) and the exp claim added by create_access_token.  The JWT library
(python-jose) is an external collaborator and is modelled symbolically. -/
structure JwtPayload where
  sub : Option Nat
  exp : Int
deriving DecidableEq, Repr

/-- A bearer token as seen by the server: either a structurally valid token
carrying a payload and the key it was signed with, or an arbitrary malformed
string.  jwt.decode with the server key succeeds exactly on tokens signed with
that key whose exp claim has not passed. -/
inductive Token where
  | signed (payload : JwtPayload) (key : String)
  | malformed (raw : String)
deriving DecidableEq, Repr

/-- create_access_token in app/core/security.py: copy the data (here the sub
claim), compute the expiry instant from expires_delta when supplied, else
from ACCESS_TOKEN_EXPIRE_MINUTES, add it as the exp claim, and sign with the
configured secret. -/
def create_access_token (data_sub : Option Nat) (now : Int)
    (expires_delta : Option Int) (accessTokenExpireMinutes : Int)
    (secretKey : String) : Token :=
  let expire : Int :=
    match expires_delta with
    | some delta => now + delta
    | none => now + accessTokenExpireMinutes * 60
  .signed { sub := data_sub, exp := expire } secretKey

/-- decode_access_token in app/core/security.py: jwt.decode verifies the
signature and the exp claim (python-jose rejects when exp is strictly in the
past), every JWTError is mapped to None. -/
def decode_access_token (token : Token) (now : Int) (secretKey : String) :
    Option JwtPayload :=
  match token with
  | .malformed _ => none
  | .signed payload key =>
      if key == secretKey && !(decide (payload.exp < now)) then some payload else none

/-- The single 401 raised by get_current_user in app/api/auth.py for every
authentication failure. -/
def credentials_exception : HttpError :=
  { status_code := 401
    detail := "Could not validate credentials"
    wwwAuthenticate := some "Bearer" }

/-- get_current_user in app/api/auth.py: decode the token (401 when invalid),
read the sub claim (401 when missing), resolve it to a user row (401 when
none exists). -/
def get_current_user (token : Token) (users : List User) (now : Int)
    (secretKey : String) : Except HttpError User :=
  match decode_access_token token now secretKey with
  | none => .error credentials_exception
  | some payload =>
      match payload.sub with
      | none => .error credentials_exception
      | some user_id =>
          match users.find? (fun u => u.id == user_id) with
          | none => .error credentials_exception
          | some u => .ok u

/-- The 401 raised by login in app/api/auth.py for an unknown email as well
as for a wrong password. -/
def loginError : HttpError :=
  { status_code := 401
    detail := "Incorrect email or password"
    wwwAuthenticate := some "Bearer" }

/-- State of the Redis collaborator behind the rate limiter: connection
absent (settings.REDIS_URL unset or ConnectionError at lazy initialization),
reachable but raising RedisError on commands, or healthy with a counter per
key.  Counter expiry is left abstract: a state describes one active window. -/
inductive RedisConn where
  | unavailable
  | erroring (st : List (String × Nat))
  | ok (st : List (String × Nat))
deriving DecidableEq, Repr

/-- Current value of a counter, 0 when the key is absent. -/
def getCounter (st : List (String × Nat)) (key : String) : Nat :=
  match st.find? (fun p => p.1 == key) with
  | some p => p.2
  | none => 0

/-- Store a counter value, replacing any previous binding of the key. -/
def setCounter (st : List (String × Nat)) (key : String) (v : Nat) :
    List (String × Nat) :=
  (key, v) :: st.filter (fun p => !(p.1 == key))

/-- Redis INCR: increment the counter (creating it at 1) and return the new
value. -/
def incrCounter (st : List (String × Nat)) (key : String) :
    Nat × List (String × Nat) :=
  let v := getCounter st key + 1
  (v, setCounter st key v)

/-- RateLimiter.is_rate_limited in app/core/rate_limiter.py: fail open when
the connection is absent or any command errors; otherwise INCR the key (on
the first increment an expiry of window_seconds is set, abstracted here) and
report limited when the counter value exceeds max_requests. -/
def is_rate_limited (conn : RedisConn) (key : String)
    (max_requests window_seconds : Nat) : Bool × RedisConn :=
  match conn with
  | .unavailable => (false, .unavailable)
  | .erroring st => (false, .erroring st)
  | .ok st =>
      let r := incrCounter st key
      (decide (r.1 > max_requests), .ok r.2)

/-- The Redis key built by check_rate_limit for an action category and a
client address. -/
def rateKey (action client_ip : String) : String :=
  "rate_limit:" ++ action ++ ":" ++ client_ip

/-- The 429 raised by check_rate_limit, carrying the Retry-After hint. -/
def tooManyRequests (window_seconds : Nat) : HttpError :=
  { status_code := 429
    detail := "Too many requests. Please try again later."
    retryAfter := some (toString window_seconds) }

/-- check_rate_limit in app/core/rate_limiter.py: build the key from the
action category and client address, ask the limiter, and raise 429 with a
Retry-After header when limited. -/
def check_rate_limit (conn : RedisConn) (client_ip : String)
    (max_requests window_seconds : Nat) (action : String) :
    Except HttpError Unit × RedisConn :=
  let r := is_rate_limited conn (rateKey action client_ip) max_requests window_seconds
  if r.1 then (.error (tooManyRequests window_seconds), r.2) else (.ok (), r.2)

/-- The Redis state after n rate-limit checks of the same action and client,
starting from a healthy store with no counters. -/
def runChecks (client_ip : String) (max_requests window_seconds : Nat)
    (action : String) : Nat → RedisConn
  | 0 => .ok []
  | n + 1 =>
      (check_rate_limit (runChecks client_ip max_requests window_seconds action n)
        client_ip max_requests window_seconds action).2

/-- login in app/api/auth.py: rate-limit first, then look the user up by
email, verify the password (bcrypt is external, passed in as the verify
predicate) and issue a token whose sub claim is the user id and whose expiry
is ACCESS_TOKEN_EXPIRE_MINUTES from now; unknown email and wrong password
produce the identical loginError. -/
def login (conn : RedisConn) (client_ip : String) (users : List User)
    (verify : String → String → Bool) (username password : String) (now : Int)
    (loginMax loginWindow : Nat) (accessTokenExpireMinutes : Int)
    (secretKey : String) : Except HttpError Token × RedisConn :=
  match check_rate_limit conn client_ip loginMax loginWindow "login" with
  | (.error e, conn2) => (.error e, conn2)
  | (.ok _, conn2) =>
      match users.find? (fun u => u.email == username) with
      | none => (.error loginError, conn2)
      | some u =>
          if verify password u.hashed_password then
            (.ok (create_access_token (some u.id) now
              (some (accessTokenExpireMinutes * 60)) accessTokenExpireMinutes
              secretKey), conn2)
          else (.error loginError, conn2)

/-- The characters of a string mapped to lower case; basis of the
case-insensitive company-name search. -/
def lowerChars (s : String) : List Char :=
  s.data.map Char.toLower

/-- Case-insensitive substring test: models the SQL
company_name ILIKE percent-search-percent filter built in get_applications. -/
def containsCI (haystack needle : String) : Bool :=
  decide (lowerChars needle <:+: lowerChars haystack)

/-- The ORDER BY date_applied DESC relation of get_applications; ties are
broken by the stable order of the sort, matching the implementation-defined
tie-break the spec allows. -/
def dateDesc (a b : Application) : Prop :=
  b.date_applied ≤ a.date_applied

instance : DecidableRel dateDesc :=
  fun a b => inferInstanceAs (Decidable (b.date_applied ≤ a.date_applied))

instance : IsTotal Application dateDesc :=
  ⟨fun a b => (le_total a.date_applied b.date_applied).symm⟩

instance : IsTrans Application dateDesc :=
  ⟨fun _ _ _ h1 h2 => le_trans h2 h1⟩

/-- GET /applications (get_applications in app/api/applications.py): filter
by owner and archived flag, then by status when the parameter is truthy, then
by case-insensitive company-name search when the parameter is truthy (in
Python an empty search string is falsy and skips the filter), order by
date_applied descending, apply OFFSET skip and LIMIT limit. -/
def get_applications (db : List Application) (uid : Nat)
    (status : Option ApplicationStatus) (search : Option String)
    (is_archived : Bool) (skip limit : Nat) : List Application :=
  let q1 := db.filter (fun a => a.user_id == uid && a.is_archived == is_archived)
  let q2 :=
    match status with
    | none => q1
    | some s => q1.filter (fun a => a.status == s)
  let q3 :=
    match search with
    | none => q2
    | some s => if s = "" then q2 else q2.filter (fun a => containsCI a.company_name s)
  ((List.insertionSort dateDesc q3).drop skip).take limit

/-- One conjoined predicate collecting all list filters, phrased after the
specification: owned by the caller, archived flag equal to the parameter,
status equal to the filter when supplied, company name containing the search
string case-insensitively when supplied. -/
def matchesListFilters (uid : Nat) (status : Option ApplicationStatus)
    (search : Option String) (is_archived : Bool) (a : Application) : Bool :=
  a.user_id == uid && a.is_archived == is_archived
    && (match status with
        | none => true
        | some s => a.status == s)
    && (match search with
        | none => true
        | some s => containsCI a.company_name s)

/-- The listing as the specification words it: the single conjoined filter,
then date-applied-descending order, then the skip/limit window. -/
def listSpec (db : List Application) (uid : Nat)
    (status : Option ApplicationStatus) (search : Option String)
    (is_archived : Bool) (skip limit : Nat) : List Application :=
  ((List.insertionSort dateDesc
      (db.filter (matchesListFilters uid status search is_archived))).drop skip).take limit

/-- All six status labels, in declaration order. -/
def allStatuses : List ApplicationStatus :=
  [.applied, .screening, .interview, .offer, .accepted, .rejected]

/-- Number of applications in a list having a given status. -/
def countStatus (apps : List Application) (s : ApplicationStatus) : Nat :=
  (apps.filter (fun a => a.status == s)).length

/-- The GROUP BY status, COUNT query of get_analytics_summary: one
(status, count) row per status actually present among the given rows. -/
def statusBreakdown (apps : List Application) : List (ApplicationStatus × Nat) :=
  (allStatuses.map (fun s => (s, countStatus apps s))).filter (fun p => p.2 != 0)

/-- status_breakdown.get(key, 0): the count stored for a status, 0 when the
status does not appear as a key. -/
def breakdownGet (bd : List (ApplicationStatus × Nat)) (s : ApplicationStatus) : Nat :=
  match bd.find? (fun p => p.1 == s) with
  | some p => p.2
  | none => 0

/-- The summary object returned by GET /analytics/summary. -/
structure AnalyticsSummary where
  total_applications : Nat
  status_breakdown : List (ApplicationStatus × Nat)
  applications_this_week : Nat
  applications_this_month : Nat
  success_rate : ℚ
deriving Repr

/-- Python round(x, 2): to two decimal places.  Rounding of exact halves is a
floating-point artifact in the source and immaterial to the claims; both the
code model and the specification statements use this same function. -/
def roundTo2 (q : ℚ) : ℚ :=
  ((round (q * 100) : ℤ) : ℚ) / 100

/-- get_analytics_summary in app/api/analytics.py: total, status breakdown,
this-week and this-month counts, each over the caller's non-archived rows,
and the success rate computed from the breakdown entries for offer and
accepted, 0.0 when the total is zero, rounded to two decimals. -/
def get_analytics_summary (db : List Application) (uid : Nat) (today : Int) :
    AnalyticsSummary :=
  let total := (db.filter (fun a =>
    a.user_id == uid && a.is_archived == false)).length
  let status_breakdown := statusBreakdown (db.filter (fun a =>
    a.user_id == uid && a.is_archived == false))
  let week_ago := today - 7
  let this_week := (db.filter (fun a =>
    a.user_id == uid && decide (week_ago ≤ a.date_applied)
      && a.is_archived == false)).length
  let month_ago := today - 30
  let this_month := (db.filter (fun a =>
    a.user_id == uid && decide (month_ago ≤ a.date_applied)
      && a.is_archived == false)).length
  let offers := breakdownGet status_breakdown .offer
    + breakdownGet status_breakdown .accepted
  let success_rate : ℚ :=
    if total > 0 then (offers : ℚ) / (total : ℚ) * 100 else 0
  { total_applications := total
    status_breakdown := status_breakdown
    applications_this_week := this_week
    applications_this_month := this_month
    success_rate := roundTo2 success_rate }

/-- The ascending date order of the timeline query. -/
def dateAsc (d e : Int) : Prop := d ≤ e

instance : DecidableRel dateAsc :=
  fun d e => inferInstanceAs (Decidable (d ≤ e))

instance : IsTotal Int dateAsc := ⟨fun d e => le_total d e⟩

instance : IsTrans Int dateAsc := ⟨fun _ _ _ h1 h2 => le_trans h1 h2⟩

/-- get_timeline in app/api/analytics.py: over the caller's non-archived rows
with date_applied at least today minus days, GROUP BY date_applied with
COUNT, ordered by date ascending. -/
def get_timeline (db : List Application) (uid : Nat) (today : Int)
    (days : Int) : List (Int × Nat) :=
  let start_date := today - days
  let rows := db.filter (fun a =>
    a.user_id == uid && decide (start_date ≤ a.date_applied)
      && a.is_archived == false)
  let dates := (rows.map (fun a => a.date_applied)).dedup
  (List.insertionSort dateAsc dates).map
    (fun d => (d, (rows.filter (fun a => a.date_applied == d)).length))

/-- Concrete rows for the scenario of the specification: three companies,
all owned by user 1, none archived. -/
def googleApp : Application :=
  { id := 1, user_id := 1, company_name := "Google"
    job_title := "Software Engineer", status := .applied, date_applied := 100
    job_url := none, notes := none, is_archived := false
    created_at := 100, updated_at := 100 }

def microsoftApp : Application :=
  { id := 2, user_id := 1, company_name := "Microsoft"
    job_title := "Developer", status := .applied, date_applied := 90
    job_url := none, notes := none, is_archived := false
    created_at := 90, updated_at := 90 }

def alphabetApp : Application :=
  { id := 3, user_id := 1, company_name := "Alphabet"
    job_title := "Engineer", status := .applied, date_applied := 80
    job_url := none, notes := none, is_archived := false
    created_at := 80, updated_at := 80 }

def demoApps : List Application := [googleApp, microsoftApp, alphabetApp]

/-- A row owned by user 2, used to exercise the not-owned branches. -/
def foreignApp : Application :=
  { id := 5, user_id := 2, company_name := "Acme"
    job_title := "Developer", status := .applied, date_applied := 10
    job_url := none, notes := none, is_archived := false
    created_at := 0, updated_at := 0 }

/-- A row of user 1 used to exercise the update and archive endpoints. -/
def frameApp : Application :=
  { id := 1, user_id := 1, company_name := "Test Company"
    job_title := "Developer", status := .applied, date_applied := 10
    job_url := some "https://jobs.example/1", notes := none
    is_archived := false, created_at := 0, updated_at := 0 }

/-- An update payload whose only present field is notes. -/
def notesOnlyUpd : ApplicationUpdate :=
  { notes := .set (some "Phone screen scheduled") }

/-- A concrete user row for the authentication witnesses. -/
def demoUser : User :=
  { id := 7, email := "user@example.com", hashed_password := "stored-hash"
    full_name := "Demo User" }

/-- A minimal non-archived row of user 1 with a chosen id and status. -/
def mkApp (i : Nat) (s : ApplicationStatus) : Application :=
  { id := i, user_id := 1, company_name := "Company", job_title := "Role"
    status := s, date_applied := 50, job_url := none, notes := none
    is_archived := false, created_at := 0, updated_at := 0 }

/-- Scenario rows: 1 applied, 1 offer, 1 accepted, 1 rejected, none
archived. -/
def scenarioCApps : List Application :=
  [mkApp 1 .applied, mkApp 2 .offer, mkApp 3 .accepted, mkApp 4 .rejected]

/-- Scenario rows: one active applied row plus one archived offer. -/
def scenarioDApps : List Application :=
  [mkApp 1 .applied, { mkApp 2 .offer with is_archived := true }]

/-! ## Helper lemmas -/

theorem ownedBy_iff (application_id uid : Nat) (a : Application) :
    ownedBy application_id uid a = true ↔ a.id = application_id ∧ a.user_id = uid := by
  simp [ownedBy]

theorem find?_owned_eq_none {db : List Application} {application_id uid : Nat}
    (h : ∀ a ∈ db, a.id = application_id → a.user_id ≠ uid) :
    db.find? (ownedBy application_id uid) = none := by
  rw [List.find?_eq_none]
  intro a ha hpa
  rcases (ownedBy_iff application_id uid a).mp hpa with ⟨h1, h2⟩
  exact h a ha h1 h2

/-! ## C1 -/

/-- C1: for get, update, delete and archive-toggle, a target that does not
exist or is owned by a different account yields one and the same 404 error
with the identical body, and the database is left unchanged by the three
mutating operations. -/
theorem notFound_uniform (db : List Application) (application_id uid : Nat)
    (u : ApplicationUpdate) (now : Int)
    (h : ∀ a ∈ db, a.id = application_id → a.user_id ≠ uid) :
    get_application db application_id uid = .error notFound
    ∧ update_application db application_id uid u now = (.error notFound, db)
    ∧ delete_application db application_id uid = (.error notFound, db)
    ∧ toggle_archive db application_id uid now = (.error notFound, db)
    ∧ notFound.status_code = 404 := by
  have hf := find?_owned_eq_none h
  exact ⟨by simp [get_application, hf], by simp [update_application, hf],
    by simp [delete_application, hf], by simp [toggle_archive, hf], rfl⟩

/-- Witness for C1: user 1 calls the four operations on a row owned by
user 2. -/
theorem notFound_uniform_witness :
    get_application [foreignApp] 5 1 = .error notFound
    ∧ update_application [foreignApp] 5 1 {} 9 = (.error notFound, [foreignApp])
    ∧ delete_application [foreignApp] 5 1 = (.error notFound, [foreignApp])
    ∧ toggle_archive [foreignApp] 5 1 9 = (.error notFound, [foreignApp])
    ∧ notFound.status_code = 404 :=
  notFound_uniform [foreignApp] 5 1 {} 9 (by decide)

/-! ## C3 -/

/-- C3: get_current_user rejects with one and the same 401 error — identical
status, detail and WWW-Authenticate challenge — whether the token is
malformed, signed with a different key, expired, lacks a sub claim, or
carries a subject matching no account; an observer of the response cannot
tell the cases apart. -/
theorem auth_rejects_uniformly (users : List User) (now : Int) (secretKey : String) :
    (∀ raw, get_current_user (.malformed raw) users now secretKey
      = .error credentials_exception)
    ∧ (∀ p key, key ≠ secretKey →
        get_current_user (.signed p key) users now secretKey
          = .error credentials_exception)
    ∧ (∀ p : JwtPayload, p.exp < now →
        get_current_user (.signed p secretKey) users now secretKey
          = .error credentials_exception)
    ∧ (∀ p : JwtPayload, p.sub = none →
        get_current_user (.signed p secretKey) users now secretKey
          = .error credentials_exception)
    ∧ (∀ (p : JwtPayload) (uid : Nat), p.sub = some uid → (∀ u ∈ users, u.id ≠ uid) →
        get_current_user (.signed p secretKey) users now secretKey
          = .error credentials_exception)
    ∧ credentials_exception.status_code = 401
    ∧ credentials_exception.wwwAuthenticate = some "Bearer" := by
  refine ⟨fun raw => rfl, ?_, ?_, ?_, ?_, rfl, rfl⟩
  · intro p key hk
    have hb : (key == secretKey) = false := beq_eq_false_iff_ne.mpr hk
    simp [get_current_user, decode_access_token, hb]
  · intro p hexp
    simp [get_current_user, decode_access_token, hexp]
  · intro p hs
    by_cases hexp : p.exp < now
    · simp [get_current_user, decode_access_token, hexp]
    · simp [get_current_user, decode_access_token, hexp, hs]
  · intro p uid hs hu
    have hf : users.find? (fun u => u.id == uid) = none := by
      rw [List.find?_eq_none]
      intro u hmem hbeq
      exact hu u hmem (by simpa using hbeq)
    by_cases hexp : p.exp < now
    · simp [get_current_user, decode_access_token, hexp]
    · simp [get_current_user, decode_access_token, hexp, hs, hf]

/-- Witness for C3: the five failure cases at concrete inputs, each
producing the identical 401. -/
theorem auth_rejects_uniformly_witness :
    get_current_user (.malformed "garbage") [demoUser] 50 "server-secret"
      = .error credentials_exception
    ∧ get_current_user (.signed { sub := some 7, exp := 100 } "other-key")
        [demoUser] 50 "server-secret" = .error credentials_exception
    ∧ get_current_user (.signed { sub := some 7, exp := 40 } "server-secret")
        [demoUser] 50 "server-secret" = .error credentials_exception
    ∧ get_current_user (.signed { sub := none, exp := 100 } "server-secret")
        [demoUser] 50 "server-secret" = .error credentials_exception
    ∧ get_current_user (.signed { sub := some 8, exp := 100 } "server-secret")
        [demoUser] 50 "server-secret" = .error credentials_exception := by
  have h := auth_rejects_uniformly [demoUser] 50 "server-secret"
  exact ⟨h.1 "garbage", h.2.1 _ "other-key" (by decide), h.2.2.1 _ (by decide),
    h.2.2.2.1 _ rfl, h.2.2.2.2.1 _ 8 rfl (by decide)⟩

/-! ## C4 -/

/-- C4: decoding a token produced by create_access_token for a subject with a
positive expiry delta, before the expiry instant and with the same secret,
yields that subject; decoding signals invalid on signature mismatch,
malformed structure, or expiry in the past; and login with correct
credentials yields a token whose validation resolves to the account
identifier. -/
theorem token_roundtrip (su : Nat) (now delta t : Int) (minutes : Int)
    (secretKey : String) (_hdelta : 0 < delta) (ht : t < now + delta) :
    decode_access_token
        (create_access_token (some su) now (some delta) minutes secretKey) t secretKey
      = some { sub := some su, exp := now + delta }
    ∧ (∀ p key, key ≠ secretKey →
        decode_access_token (.signed p key) t secretKey = none)
    ∧ (∀ raw, decode_access_token (.malformed raw) t secretKey = none)
    ∧ (∀ p : JwtPayload, p.exp < t →
        decode_access_token (.signed p secretKey) t secretKey = none)
    ∧ (∀ (conn : RedisConn) (client_ip : String) (users : List User)
         (verify : String → String → Bool) (username password : String)
         (now2 : Int) (loginMax loginWindow : Nat) (u : User),
        (check_rate_limit conn client_ip loginMax loginWindow "login").1 = .ok ()
        → users.find? (fun v => v.email == username) = some u
        → verify password u.hashed_password = true
        → (login conn client_ip users verify username password now2 loginMax
             loginWindow minutes secretKey).1
            = .ok (create_access_token (some u.id) now2 (some (minutes * 60))
                minutes secretKey)
          ∧ ∀ t2, t2 < now2 + minutes * 60 →
              (decode_access_token
                  (create_access_token (some u.id) now2 (some (minutes * 60))
                    minutes secretKey) t2 secretKey).map JwtPayload.sub
                = some (some u.id)) := by
  refine ⟨?_, ?_, fun raw => rfl, ?_, ?_⟩
  · have hnl : ¬(now + delta < t) := not_lt.mpr (le_of_lt ht)
    simp [create_access_token, decode_access_token, hnl]
  · intro p key hk
    have hb : (key == secretKey) = false := beq_eq_false_iff_ne.mpr hk
    simp [decode_access_token, hb]
  · intro p hexp
    simp [decode_access_token, hexp]
  · intro conn client_ip users verify username password now2 loginMax loginWindow u
      hrl hfind hver
    rcases hc : check_rate_limit conn client_ip loginMax loginWindow "login"
      with ⟨r, conn2⟩
    rw [hc] at hrl
    simp only at hrl
    subst hrl
    constructor
    · simp [login, hc, hfind, hver]
    · intro t2 ht2
      have hnl : ¬(now2 + minutes * 60 < t2) := not_lt.mpr (le_of_lt ht2)
      simp [create_access_token, decode_access_token, hnl]

/-- Witness for C4: a concrete round-trip and a concrete successful login
whose token resolves back to the account identifier. -/
theorem token_roundtrip_witness :
    decode_access_token
        (create_access_token (some 7) 0 (some 60) 30 "server-secret") 30 "server-secret"
      = some { sub := some 7, exp := 60 }
    ∧ (login .unavailable "1.2.3.4" [demoUser] (fun _ h => h == "stored-hash")
        "user@example.com" "pw" 0 5 60 30 "server-secret").1
      = .ok (create_access_token (some 7) 0 (some (30 * 60)) 30 "server-secret")
    ∧ (decode_access_token
        (create_access_token (some 7) 0 (some (30 * 60)) 30 "server-secret")
        100 "server-secret").map JwtPayload.sub = some (some 7) := by
  have h := token_roundtrip 7 0 60 30 30 "server-secret" (by decide) (by decide)
  have h5 := h.2.2.2.2 .unavailable "1.2.3.4" [demoUser]
    (fun _ hh => hh == "stored-hash") "user@example.com" "pw" 0 5 60 demoUser
    rfl rfl rfl
  exact ⟨h.1, h5.1, h5.2 100 (by decide)⟩

theorem find?_replaceFirst {p : α → Bool} {f : α → α} {l : List α} {a : α}
    (hfind : l.find? p = some a) (hf : p (f a) = true) :
    (replaceFirst p f l).find? p = some (f a) := by
  induction l with
  | nil => simp at hfind
  | cons x xs ih =>
    by_cases hx : p x = true
    · rw [List.find?_cons_of_pos _ hx] at hfind
      injection hfind with hxa
      subst hxa
      simp only [replaceFirst, hx, if_true]
      exact List.find?_cons_of_pos _ hf
    · have hx2 : (p x) = false := by simpa using hx
      rw [List.find?_cons_of_neg _ hx] at hfind
      have hr : replaceFirst p f (x :: xs) = x :: replaceFirst p f xs := by
        simp [replaceFirst, hx2]
      rw [hr, List.find?_cons_of_neg _ hx]
      exact ih hfind

/-! ## C7 -/

/-- C7: the archive toggle flips the boolean archived flag while leaving
every content field unchanged, and a second toggle returns the record to its
original archived value. -/
theorem toggle_archive_involution (db : List Application) (application_id uid : Nat)
    (now now2 : Int) (a : Application)
    (hfind : db.find? (ownedBy application_id uid) = some a) :
    (toggle_archive db application_id uid now).1 = .ok (toggleArchived a now)
    ∧ (toggleArchived a now).is_archived = !a.is_archived
    ∧ (toggleArchived a now).user_id = a.user_id
    ∧ (toggleArchived a now).company_name = a.company_name
    ∧ (toggleArchived a now).job_title = a.job_title
    ∧ (toggleArchived a now).status = a.status
    ∧ (toggleArchived a now).date_applied = a.date_applied
    ∧ (toggleArchived a now).job_url = a.job_url
    ∧ (toggleArchived a now).notes = a.notes
    ∧ (toggle_archive (toggle_archive db application_id uid now).2
        application_id uid now2).1
        = .ok (toggleArchived (toggleArchived a now) now2)
    ∧ (toggleArchived (toggleArchived a now) now2).is_archived = a.is_archived := by
  have hpa : ownedBy application_id uid a = true := List.find?_some hfind
  have hpf : ownedBy application_id uid (toggleArchived a now) = true := by
    simpa [ownedBy, toggleArchived] using hpa
  have hfind2 : ((toggle_archive db application_id uid now).2).find?
      (ownedBy application_id uid) = some (toggleArchived a now) := by
    simp only [toggle_archive, hfind]
    exact find?_replaceFirst hfind hpf
  refine ⟨by simp [toggle_archive, hfind], rfl, rfl, rfl, rfl, rfl, rfl, rfl, rfl,
    ?_, by simp [toggleArchived]⟩
  generalize hdb2 : (toggle_archive db application_id uid now).2 = db2 at hfind2
  simp [toggle_archive, hfind2]

/-- Witness for C7: toggling a concrete active record archives it, and a
second toggle restores the original archived value. -/
theorem toggle_archive_involution_witness :
    (toggle_archive [frameApp] 1 1 3).1 = .ok (toggleArchived frameApp 3)
    ∧ (toggle_archive (toggle_archive [frameApp] 1 1 3).2 1 1 4).1
        = .ok (toggleArchived (toggleArchived frameApp 3) 4)
    ∧ (toggleArchived (toggleArchived frameApp 3) 4).is_archived
        = frameApp.is_archived := by
  obtain ⟨h1, _, _, _, _, _, _, _, _, h10, h11⟩ :=
    toggle_archive_involution [frameApp] 1 1 3 4 frameApp rfl
  exact ⟨h1, h10, h11⟩

/-! ## C6 -/

/-- Counterexample to C6 as stated: an update whose payload names only notes
nevertheless changes the stored record, because the update timestamp — a
field not named in the payload — is refreshed by the operation. -/
theorem update_frame_counterexample :
    ((update_application [frameApp] 1 1 notesOnlyUpd 5).2.map Application.updated_at)
      ≠ [frameApp].map Application.updated_at := by
  decide

/-- C6 (amended): exactly the payload-addressable fields explicitly present
in the request are written — an absent key leaves the field untouched, an
explicit null clears a nullable field — and owner, identifier, archived flag
and creation timestamp are unchanged; the update timestamp, however, is
refreshed by every update. -/
theorem update_partial_frame (db : List Application) (application_id uid : Nat)
    (u : ApplicationUpdate) (now : Int) (a : Application)
    (hfind : db.find? (ownedBy application_id uid) = some a) :
    (update_application db application_id uid u now).1 = .ok (applyUpdate a u now)
    ∧ (u.company_name = none → (applyUpdate a u now).company_name = a.company_name)
    ∧ (∀ v, u.company_name = some v → (applyUpdate a u now).company_name = v)
    ∧ (u.job_title = none → (applyUpdate a u now).job_title = a.job_title)
    ∧ (∀ v, u.job_title = some v → (applyUpdate a u now).job_title = v)
    ∧ (u.status = none → (applyUpdate a u now).status = a.status)
    ∧ (∀ v, u.status = some v → (applyUpdate a u now).status = v)
    ∧ (u.date_applied = none → (applyUpdate a u now).date_applied = a.date_applied)
    ∧ (∀ v, u.date_applied = some v → (applyUpdate a u now).date_applied = v)
    ∧ (u.job_url = .unset → (applyUpdate a u now).job_url = a.job_url)
    ∧ (∀ v, u.job_url = .set v → (applyUpdate a u now).job_url = v)
    ∧ (u.notes = .unset → (applyUpdate a u now).notes = a.notes)
    ∧ (∀ v, u.notes = .set v → (applyUpdate a u now).notes = v)
    ∧ (applyUpdate a u now).id = a.id
    ∧ (applyUpdate a u now).user_id = a.user_id
    ∧ (applyUpdate a u now).is_archived = a.is_archived
    ∧ (applyUpdate a u now).created_at = a.created_at
    ∧ (applyUpdate a u now).updated_at = now := by
  refine ⟨by simp [update_application, hfind],
    fun h => by simp [applyUpdate, applyField, h],
    fun v h => by simp [applyUpdate, applyField, h],
    fun h => by simp [applyUpdate, applyField, h],
    fun v h => by simp [applyUpdate, applyField, h],
    fun h => by simp [applyUpdate, applyField, h],
    fun v h => by simp [applyUpdate, applyField, h],
    fun h => by simp [applyUpdate, applyField, h],
    fun v h => by simp [applyUpdate, applyField, h],
    fun h => by simp [applyUpdate, applyNullableField, h],
    fun v h => by simp [applyUpdate, applyNullableField, h],
    fun h => by simp [applyUpdate, applyNullableField, h],
    fun v h => by simp [applyUpdate, applyNullableField, h],
    rfl, rfl, rfl, rfl, rfl⟩

/-- Witness for C6 (amended): the notes-only payload rewrites notes, keeps
company name, owner and creation timestamp, and refreshes the update
timestamp. -/
theorem update_partial_frame_witness :
    (update_application [frameApp] 1 1 notesOnlyUpd 5).1
      = .ok (applyUpdate frameApp notesOnlyUpd 5)
    ∧ (applyUpdate frameApp notesOnlyUpd 5).company_name = frameApp.company_name
    ∧ (applyUpdate frameApp notesOnlyUpd 5).notes = some "Phone screen scheduled"
    ∧ (applyUpdate frameApp notesOnlyUpd 5).user_id = frameApp.user_id
    ∧ (applyUpdate frameApp notesOnlyUpd 5).created_at = frameApp.created_at
    ∧ (applyUpdate frameApp notesOnlyUpd 5).updated_at = 5 := by
  obtain ⟨h1, h2, _, _, _, _, _, _, _, _, _, _, h13, _, h15, _, h17, h18⟩ :=
    update_partial_frame [frameApp] 1 1 notesOnlyUpd 5 frameApp rfl
  exact ⟨h1, h2 rfl, h13 _ rfl, h15, h17, h18⟩

theorem getCounter_setCounter (st : List (String × Nat)) (key : String) (v : Nat) :
    getCounter (setCounter st key v) key = v := by
  simp [getCounter, setCounter]

theorem runChecks_counter (client_ip : String) (maxR window : Nat) (action : String) :
    ∀ n, ∃ st, runChecks client_ip maxR window action n = .ok st
      ∧ getCounter st (rateKey action client_ip) = n := by
  intro n
  induction n with
  | zero => exact ⟨[], rfl, rfl⟩
  | succ n ih =>
    obtain ⟨st, hrun, hcnt⟩ := ih
    refine ⟨setCounter st (rateKey action client_ip) (n + 1), ?_, ?_⟩
    · show (check_rate_limit (runChecks client_ip maxR window action n)
        client_ip maxR window action).2 = _
      rw [hrun]
      simp only [check_rate_limit, is_rate_limited, incrCounter, hcnt]
      by_cases h : n + 1 > maxR <;> simp [h]
    · exact getCounter_setCounter st (rateKey action client_ip) (n + 1)

/-! ## C8 -/

/-- C8: starting a fresh window, the first max_requests checks of a key are
allowed and every further check is rejected with a 429 carrying a
Retry-After hint; when the counter store is unreachable or erroring, the
check allows the request (fails open). -/
theorem rate_limiter_contract (client_ip action : String)
    (maxR window n : Nat) (st : List (String × Nat)) :
    (check_rate_limit (runChecks client_ip maxR window action n)
        client_ip maxR window action).1
      = (if n < maxR then .ok () else .error (tooManyRequests window))
    ∧ (tooManyRequests window).status_code = 429
    ∧ (tooManyRequests window).retryAfter = some (toString window)
    ∧ check_rate_limit .unavailable client_ip maxR window action
        = (.ok (), .unavailable)
    ∧ check_rate_limit (.erroring st) client_ip maxR window action
        = (.ok (), .erroring st) := by
  refine ⟨?_, rfl, rfl, rfl, rfl⟩
  obtain ⟨st0, hrun, hcnt⟩ := runChecks_counter client_ip maxR window action n
  rw [hrun]
  simp only [check_rate_limit, is_rate_limited, incrCounter, hcnt]
  rcases Nat.lt_or_ge n maxR with h | h
  · have hng : ¬ (n + 1 > maxR) := by omega
    simp [h, hng]
  · have hg : n + 1 > maxR := by omega
    have hn : ¬ n < maxR := by omega
    simp [hg, hn]

theorem breakdownGet_cons_eq {t : ApplicationStatus} {c : Nat}
    {rest : List (ApplicationStatus × Nat)} :
    breakdownGet ((t, c) :: rest) t = c := by
  unfold breakdownGet
  rw [List.find?_cons_of_pos _ (by simp)]

theorem breakdownGet_cons_ne {t : ApplicationStatus} {c : Nat}
    {rest : List (ApplicationStatus × Nat)} {s : ApplicationStatus} (h : t ≠ s) :
    breakdownGet ((t, c) :: rest) s = breakdownGet rest s := by
  unfold breakdownGet
  rw [List.find?_cons_of_neg _ (by simp [h])]

theorem breakdown_lookup_aux (apps : List Application) (s : ApplicationStatus) :
    ∀ L : List ApplicationStatus, s ∈ L →
      breakdownGet ((L.map (fun t => (t, countStatus apps t))).filter
        (fun p => p.2 != 0)) s = countStatus apps s := by
  intro L
  induction L with
  | nil => intro hmem; cases hmem
  | cons t L ih =>
    intro hmem
    by_cases hts : t = s
    · subst hts
      by_cases hc : countStatus apps t = 0
      · have hg : ((countStatus apps t : Nat) != 0) = false := by simp [hc]
        rw [List.map_cons, List.filter_cons, hg]
        simp only [Bool.false_eq_true, if_false]
        have hnone : ((L.map (fun r => (r, countStatus apps r))).filter
            (fun p => p.2 != 0)).find? (fun p => p.1 == t) = none := by
          rw [List.find?_eq_none]
          intro pr hpr0 hbeq
          obtain ⟨hprm, hp2⟩ := List.mem_filter.mp hpr0
          obtain ⟨r, _, hpr⟩ := List.mem_map.mp hprm
          subst hpr
          have hrt : r = t := by simpa using hbeq
          subst hrt
          simp [hc] at hp2
        unfold breakdownGet
        rw [hnone, hc]
      · have hg : ((countStatus apps t : Nat) != 0) = true := by simpa using hc
        rw [List.map_cons, List.filter_cons, hg]
        simp only [if_true]
        exact breakdownGet_cons_eq
    · have hs : s ∈ L := by
        rcases List.mem_cons.mp hmem with h | h
        · exact absurd h.symm hts
        · exact h
      by_cases hc : countStatus apps t = 0
      · have hg : ((countStatus apps t : Nat) != 0) = false := by simp [hc]
        rw [List.map_cons, List.filter_cons, hg]
        simp only [Bool.false_eq_true, if_false]
        exact ih hs
      · have hg : ((countStatus apps t : Nat) != 0) = true := by simpa using hc
        rw [List.map_cons, List.filter_cons, hg]
        simp only [if_true]
        rw [breakdownGet_cons_ne hts]
        exact ih hs

theorem breakdownGet_statusBreakdown (apps : List Application) (s : ApplicationStatus) :
    breakdownGet (statusBreakdown apps) s = countStatus apps s :=
  breakdown_lookup_aux apps s allStatuses (by cases s <;> decide)

theorem length_filter_or (l : List α) (p q : α → Bool)
    (h : ∀ a, p a = true → q a = false) :
    (l.filter (fun a => p a || q a)).length
      = (l.filter p).length + (l.filter q).length := by
  induction l with
  | nil => rfl
  | cons x xs ih =>
    by_cases hp : p x = true
    · have hq : q x = false := h x hp
      simp only [List.filter_cons, hp, hq, Bool.true_or, Bool.false_eq_true,
        if_true, if_false, List.length_cons]
      omega
    · have hp2 : p x = false := by simpa using hp
      by_cases hq : q x = true
      · simp only [List.filter_cons, hp2, hq, Bool.false_or, Bool.false_eq_true,
          if_true, if_false, List.length_cons]
        omega
      · have hq2 : q x = false := by simpa using hq
        simp only [List.filter_cons, hp2, hq2, Bool.false_or, Bool.false_eq_true,
          if_false]
        exact ih

/-! ## C2 -/

/-- C2: the summary's success_rate is exactly 0 when the caller has no
non-archived applications, and otherwise equals 100 times the count of the
caller's non-archived applications with status offer or accepted, divided by
the count of all the caller's non-archived applications, rounded to two
decimal places; archived rows are excluded from numerator and denominator
alike. -/
theorem success_rate_spec (db : List Application) (uid : Nat) (today : Int) :
    ((db.filter (fun a => a.user_id == uid && a.is_archived == false)).length = 0 →
      (get_analytics_summary db uid today).success_rate = 0)
    ∧ (0 < (db.filter (fun a => a.user_id == uid && a.is_archived == false)).length →
      (get_analytics_summary db uid today).success_rate
        = roundTo2 (100 * ((db.filter (fun a => a.user_id == uid
              && a.is_archived == false
              && (a.status == ApplicationStatus.offer
                || a.status == ApplicationStatus.accepted))).length : ℚ)
            / ((db.filter (fun a =>
              a.user_id == uid && a.is_archived == false)).length : ℚ))) := by
  have hsr : (get_analytics_summary db uid today).success_rate
      = roundTo2 (if 0 < (db.filter (fun a =>
            a.user_id == uid && a.is_archived == false)).length
          then ((breakdownGet (statusBreakdown (db.filter (fun a =>
                a.user_id == uid && a.is_archived == false))) .offer
              + breakdownGet (statusBreakdown (db.filter (fun a =>
                a.user_id == uid && a.is_archived == false))) .accepted : Nat) : ℚ)
            / ((db.filter (fun a =>
                a.user_id == uid && a.is_archived == false)).length : ℚ) * 100
          else 0) := rfl
  have hOA : breakdownGet (statusBreakdown (db.filter (fun a =>
        a.user_id == uid && a.is_archived == false))) .offer
      + breakdownGet (statusBreakdown (db.filter (fun a =>
        a.user_id == uid && a.is_archived == false))) .accepted
      = (db.filter (fun a => a.user_id == uid && a.is_archived == false
          && (a.status == ApplicationStatus.offer
            || a.status == ApplicationStatus.accepted))).length := by
    rw [breakdownGet_statusBreakdown, breakdownGet_statusBreakdown]
    unfold countStatus
    rw [← length_filter_or _ _ _ (by
      intro a ha
      have hst : a.status = .offer := by simpa using ha
      simp [hst])]
    rw [List.filter_filter]
    congr 1
    apply List.filter_congr
    intro a _
    cases h1 : (a.user_id == uid) <;> cases h2 : (a.is_archived == false) <;>
      cases h3 : (a.status == ApplicationStatus.offer) <;>
      cases h4 : (a.status == ApplicationStatus.accepted) <;> rfl
  constructor
  · intro h0
    rw [hsr, h0]
    simp [roundTo2]
  · intro hpos
    rw [hsr, hOA, if_pos hpos]
    congr 1
    ring

/-- Witness for C2: scenario rows with statuses applied, offer, accepted and
rejected give a 50 percent success rate, and with one active applied row plus
one archived offer the archived offer is excluded and the rate is 0. -/
theorem success_rate_spec_witness :
    (0 : Nat) < (scenarioCApps.filter (fun a =>
      a.user_id == 1 && a.is_archived == false)).length
    ∧ (get_analytics_summary scenarioCApps 1 60).success_rate
      = roundTo2 (100 * ((scenarioCApps.filter (fun a => a.user_id == 1
            && a.is_archived == false
            && (a.status == ApplicationStatus.offer
              || a.status == ApplicationStatus.accepted))).length : ℚ)
          / ((scenarioCApps.filter (fun a =>
            a.user_id == 1 && a.is_archived == false)).length : ℚ))
    ∧ (get_analytics_summary scenarioCApps 1 60).success_rate = 50
    ∧ (get_analytics_summary scenarioDApps 1 60).success_rate = 0
    ∧ (get_analytics_summary scenarioDApps 1 60).total_applications = 1 := by
  refine ⟨by decide, (success_rate_spec scenarioCApps 1 60).2 (by decide), ?_, ?_, by decide⟩
  · have h := (success_rate_spec scenarioCApps 1 60).2 (by decide)
    have hn : (scenarioCApps.filter (fun a => a.user_id == 1
        && a.is_archived == false
        && (a.status == ApplicationStatus.offer
          || a.status == ApplicationStatus.accepted))).length = 2 := by decide
    have hd : (scenarioCApps.filter (fun a =>
        a.user_id == 1 && a.is_archived == false)).length = 4 := by decide
    rw [h, hn, hd]
    norm_num [roundTo2]
  · have h := (success_rate_spec scenarioDApps 1 60).2 (by decide)
    have hn : (scenarioDApps.filter (fun a => a.user_id == 1
        && a.is_archived == false
        && (a.status == ApplicationStatus.offer
          || a.status == ApplicationStatus.accepted))).length = 0 := by decide
    have hd : (scenarioDApps.filter (fun a =>
        a.user_id == 1 && a.is_archived == false)).length = 1 := by decide
    rw [h, hn, hd]
    norm_num [roundTo2]

theorem sum_map_snd_filter_nz (l : List (ApplicationStatus × Nat)) :
    ((l.filter (fun p => p.2 != 0)).map Prod.snd).sum = (l.map Prod.snd).sum := by
  induction l with
  | nil => rfl
  | cons x xs ih =>
    by_cases h : x.2 = 0
    · have hg : (x.2 != 0) = false := by simp [h]
      simp [List.filter_cons, hg, h, ih]
    · have hg : (x.2 != 0) = true := by simpa using h
      simp [List.filter_cons, hg, ih]

theorem countStatus_cons (a : Application) (l : List Application)
    (s : ApplicationStatus) :
    countStatus (a :: l) s = (if a.status = s then 1 else 0) + countStatus l s := by
  by_cases h : a.status = s
  · simp [countStatus, List.filter_cons, h]
    omega
  · simp [countStatus, List.filter_cons, h]

theorem sum_map_add_nat (L : List α) (f g : α → Nat) :
    (L.map (fun x => f x + g x)).sum = (L.map f).sum + (L.map g).sum := by
  induction L with
  | nil => rfl
  | cons x xs ih => simp [ih]; omega

theorem sum_counts (apps : List Application) :
    (allStatuses.map (fun s => countStatus apps s)).sum = apps.length := by
  induction apps with
  | nil => rfl
  | cons a l ih =>
    have hone : (allStatuses.map (fun s =>
        if a.status = s then 1 else 0)).sum = 1 := by
      cases h : a.status <;> simp [allStatuses, h]
    have hcons : (allStatuses.map (fun s => countStatus (a :: l) s)).sum
        = (allStatuses.map (fun s =>
            (if a.status = s then 1 else 0) + countStatus l s)).sum := by
      apply congrArg List.sum
      apply List.map_congr_left
      intro s _
      exact countStatus_cons a l s
    rw [hcons, sum_map_add_nat, hone, ih]
    simp [Nat.add_comm]

/-! ## C10 -/

/-- C10: the values of the summary's status_breakdown sum to
total_applications — both are computed over the caller's non-archived rows
and every row has exactly one status — and consequently the offer plus
accepted count used for the success rate never exceeds the total. -/
theorem breakdown_sum_consistent (db : List Application) (uid : Nat) (today : Int) :
    (((get_analytics_summary db uid today).status_breakdown).map Prod.snd).sum
      = (get_analytics_summary db uid today).total_applications
    ∧ breakdownGet (get_analytics_summary db uid today).status_breakdown .offer
      + breakdownGet (get_analytics_summary db uid today).status_breakdown .accepted
      ≤ (get_analytics_summary db uid today).total_applications := by
  have hbd : (get_analytics_summary db uid today).status_breakdown
      = statusBreakdown (db.filter (fun a =>
          a.user_id == uid && a.is_archived == false)) := rfl
  have htot : (get_analytics_summary db uid today).total_applications
      = (db.filter (fun a => a.user_id == uid && a.is_archived == false)).length :=
    rfl
  rw [hbd, htot]
  constructor
  · unfold statusBreakdown
    rw [sum_map_snd_filter_nz, List.map_map]
    have hc : (Prod.snd ∘ fun s => (s, countStatus (db.filter (fun a =>
        a.user_id == uid && a.is_archived == false)) s))
        = fun s => countStatus (db.filter (fun a =>
            a.user_id == uid && a.is_archived == false)) s := rfl
    rw [hc]
    exact sum_counts _
  · rw [breakdownGet_statusBreakdown, breakdownGet_statusBreakdown]
    unfold countStatus
    rw [← length_filter_or _ _ _ (by
      intro a ha
      have hst : a.status = .offer := by simpa using ha
      simp [hst])]
    exact List.length_filter_le _ _

theorem timelineOf_mem (rows : List Application) (d : Int) (c : Nat) :
    (d, c) ∈ (List.insertionSort dateAsc
        ((rows.map (fun a => a.date_applied)).dedup)).map
        (fun e => (e, (rows.filter (fun a => a.date_applied == e)).length))
      ↔ ((∃ a ∈ rows, a.date_applied = d)
         ∧ c = (rows.filter (fun a => a.date_applied == d)).length) := by
  rw [List.mem_map]
  constructor
  · rintro ⟨e, he, heq⟩
    obtain ⟨h1, h2⟩ := Prod.mk.injEq .. |>.mp heq
    subst h1
    refine ⟨?_, h2.symm⟩
    have hd : e ∈ (rows.map (fun a => a.date_applied)).dedup := by
      rwa [(List.perm_insertionSort dateAsc _).mem_iff] at he
    obtain ⟨a, ha, hae⟩ := List.mem_map.mp (List.mem_dedup.mp hd)
    exact ⟨a, ha, hae⟩
  · rintro ⟨⟨a, ha, had⟩, hc⟩
    refine ⟨d, ?_, by rw [hc]⟩
    rw [(List.perm_insertionSort dateAsc _).mem_iff, List.mem_dedup]
    exact List.mem_map.mpr ⟨a, ha, had⟩

theorem timelineOf_pos (rows : List Application) :
    ∀ p ∈ (List.insertionSort dateAsc
        ((rows.map (fun a => a.date_applied)).dedup)).map
        (fun e => (e, (rows.filter (fun a => a.date_applied == e)).length)),
      1 ≤ p.2 := by
  intro p hp
  obtain ⟨e, he, heq⟩ := List.mem_map.mp hp
  subst heq
  have hd : e ∈ (rows.map (fun a => a.date_applied)).dedup := by
    rwa [(List.perm_insertionSort dateAsc _).mem_iff] at he
  obtain ⟨a, ha, hae⟩ := List.mem_map.mp (List.mem_dedup.mp hd)
  have hmem : a ∈ rows.filter (fun x => x.date_applied == e) :=
    List.mem_filter.mpr ⟨ha, by simp [hae]⟩
  have hpos := List.length_pos.mpr (List.ne_nil_of_mem hmem)
  simpa using hpos

theorem timelineOf_pairwise (rows : List Application) :
    List.Pairwise (fun p q : Int × Nat => p.1 < q.1)
      ((List.insertionSort dateAsc
        ((rows.map (fun a => a.date_applied)).dedup)).map
        (fun e => (e, (rows.filter (fun a => a.date_applied == e)).length))) := by
  rw [List.pairwise_map]
  have hsorted : List.Pairwise dateAsc (List.insertionSort dateAsc
      ((rows.map (fun a => a.date_applied)).dedup)) :=
    List.sorted_insertionSort dateAsc _
  have hnodup : (List.insertionSort dateAsc
      ((rows.map (fun a => a.date_applied)).dedup)).Pairwise (fun d e => d ≠ e) := by
    have : (List.insertionSort dateAsc
        ((rows.map (fun a => a.date_applied)).dedup)).Nodup := by
      rw [(List.perm_insertionSort dateAsc _).nodup_iff]
      exact List.nodup_dedup _
    exact this
  exact (hsorted.and hnodup).imp (fun h => lt_of_le_of_ne h.1 h.2)

/-! ## C9 -/

/-- C9: the timeline contains exactly one entry per distinct date-applied
value among the caller's non-archived applications dated on or after today
minus days, each entry carrying the count of such applications on that date;
every count is at least 1 and the entries are strictly ascending by date. -/
theorem timeline_spec (db : List Application) (uid : Nat) (today days : Int) :
    (∀ (d : Int) (c : Nat), (d, c) ∈ get_timeline db uid today days ↔
      ((∃ a ∈ db.filter (fun a => a.user_id == uid
          && decide (today - days ≤ a.date_applied) && a.is_archived == false),
        a.date_applied = d)
       ∧ c = ((db.filter (fun a => a.user_id == uid
          && decide (today - days ≤ a.date_applied) && a.is_archived == false)).filter
            (fun a => a.date_applied == d)).length))
    ∧ (∀ p ∈ get_timeline db uid today days, 1 ≤ p.2)
    ∧ List.Pairwise (fun p q : Int × Nat => p.1 < q.1)
        (get_timeline db uid today days) := by
  refine ⟨?_, ?_, ?_⟩
  · intro d c
    exact timelineOf_mem (db.filter (fun a => a.user_id == uid
      && decide (today - days ≤ a.date_applied) && a.is_archived == false)) d c
  · exact timelineOf_pos _
  · exact timelineOf_pairwise _

/-- Witness for C9: with rows dated 100, 90 and 80 and a 30-day window from
day 100, the date 80 appears with count 1, counts are positive and the
entries ascend. -/
theorem timeline_spec_witness :
    (((80 : Int), (1 : Nat)) ∈ get_timeline demoApps 1 100 30)
    ∧ (1 : Nat) ≤ (((80 : Int), (1 : Nat)) : Int × Nat).2
    ∧ List.Pairwise (fun p q : Int × Nat => p.1 < q.1)
        (get_timeline demoApps 1 100 30) := by
  have h := timeline_spec demoApps 1 100 30
  have hmem : ((80 : Int), (1 : Nat)) ∈ get_timeline demoApps 1 100 30 := by
    refine (h.1 80 1).mpr ⟨?_, ?_⟩
    · decide
    · decide
  exact ⟨hmem, h.2.1 _ hmem, h.2.2⟩

theorem containsCI_empty (h : String) : containsCI h "" = true := by
  have he : lowerChars "" = [] := rfl
  unfold containsCI
  rw [he]
  exact decide_eq_true List.nil_infix

theorem get_applications_eq_listSpec (db : List Application) (uid : Nat)
    (status : Option ApplicationStatus) (search : Option String)
    (is_archived : Bool) (skip limit : Nat) :
    get_applications db uid status search is_archived skip limit
      = listSpec db uid status search is_archived skip limit := by
  rcases status with _ | s
  · rcases search with _ | s2
    · show ((List.insertionSort dateDesc
          (db.filter (fun a =>
            a.user_id == uid && a.is_archived == is_archived))).drop skip).take limit
        = ((List.insertionSort dateDesc
          (db.filter (matchesListFilters uid none none is_archived))).drop
            skip).take limit
      have hf : db.filter (fun a => a.user_id == uid && a.is_archived == is_archived)
          = db.filter (matchesListFilters uid none none is_archived) :=
        List.filter_congr (fun a _ => by simp [matchesListFilters])
      rw [hf]
    · by_cases he : s2 = ""
      · subst he
        show ((List.insertionSort dateDesc
            (db.filter (fun a =>
              a.user_id == uid && a.is_archived == is_archived))).drop skip).take limit
          = ((List.insertionSort dateDesc
            (db.filter (matchesListFilters uid none (some "") is_archived))).drop
              skip).take limit
        have hf : db.filter (fun a =>
              a.user_id == uid && a.is_archived == is_archived)
            = db.filter (matchesListFilters uid none (some "") is_archived) :=
          List.filter_congr (fun a _ => by
            simp [matchesListFilters, containsCI_empty])
        rw [hf]
      · show ((List.insertionSort dateDesc
            (if s2 = ""
              then db.filter (fun a =>
                a.user_id == uid && a.is_archived == is_archived)
              else (db.filter (fun a =>
                a.user_id == uid && a.is_archived == is_archived)).filter
                  (fun a => containsCI a.company_name s2))).drop skip).take limit
          = ((List.insertionSort dateDesc
            (db.filter (matchesListFilters uid none (some s2) is_archived))).drop
              skip).take limit
        rw [if_neg he, List.filter_filter]
        have hf : db.filter (fun a => containsCI a.company_name s2
              && (a.user_id == uid && a.is_archived == is_archived))
            = db.filter (matchesListFilters uid none (some s2) is_archived) :=
          List.filter_congr (fun a _ => by
            simp only [matchesListFilters]
            cases containsCI a.company_name s2 <;> cases (a.user_id == uid) <;>
              cases (a.is_archived == is_archived) <;> rfl)
        rw [hf]
  · rcases search with _ | s2
    · show ((List.insertionSort dateDesc
          ((db.filter (fun a =>
            a.user_id == uid && a.is_archived == is_archived)).filter
              (fun a => a.status == s))).drop skip).take limit
        = ((List.insertionSort dateDesc
          (db.filter (matchesListFilters uid (some s) none is_archived))).drop
            skip).take limit
      rw [List.filter_filter]
      have hf : db.filter (fun a => (a.status == s)
            && (a.user_id == uid && a.is_archived == is_archived))
          = db.filter (matchesListFilters uid (some s) none is_archived) :=
        List.filter_congr (fun a _ => by
          simp only [matchesListFilters]
          cases (a.status == s) <;> cases (a.user_id == uid) <;>
            cases (a.is_archived == is_archived) <;> rfl)
      rw [hf]
    · by_cases he : s2 = ""
      · subst he
        show ((List.insertionSort dateDesc
            ((db.filter (fun a =>
              a.user_id == uid && a.is_archived == is_archived)).filter
                (fun a => a.status == s))).drop skip).take limit
          = ((List.insertionSort dateDesc
            (db.filter (matchesListFilters uid (some s) (some "") is_archived))).drop
              skip).take limit
        rw [List.filter_filter]
        have hf : db.filter (fun a => (a.status == s)
              && (a.user_id == uid && a.is_archived == is_archived))
            = db.filter (matchesListFilters uid (some s) (some "") is_archived) :=
          List.filter_congr (fun a _ => by
            simp only [matchesListFilters, containsCI_empty]
            cases (a.status == s) <;> cases (a.user_id == uid) <;>
              cases (a.is_archived == is_archived) <;> rfl)
        rw [hf]
      · show ((List.insertionSort dateDesc
            (if s2 = ""
              then (db.filter (fun a =>
                a.user_id == uid && a.is_archived == is_archived)).filter
                  (fun a => a.status == s)
              else ((db.filter (fun a =>
                a.user_id == uid && a.is_archived == is_archived)).filter
                  (fun a => a.status == s)).filter
                    (fun a => containsCI a.company_name s2))).drop skip).take limit
          = ((List.insertionSort dateDesc
            (db.filter (matchesListFilters uid (some s) (some s2) is_archived))).drop
              skip).take limit
        rw [if_neg he, List.filter_filter, List.filter_filter]
        have hf : db.filter (fun a => containsCI a.company_name s2
              && (a.status == s)
              && (a.user_id == uid && a.is_archived == is_archived))
            = db.filter (matchesListFilters uid (some s) (some s2) is_archived) :=
          List.filter_congr (fun a _ => by
            simp only [matchesListFilters]
            cases containsCI a.company_name s2 <;> cases (a.status == s) <;>
              cases (a.user_id == uid) <;>
              cases (a.is_archived == is_archived) <;> rfl)
        rw [hf]

/-! ## C5 -/

/-- C5: the listing returns exactly the caller's applications whose archived
flag, status and company-name search match, all filters conjoined, ordered by
date applied descending with the skip/limit window applied; and searching
goo among Google, Microsoft and Alphabet returns exactly the Google record. -/
theorem get_applications_spec :
    (∀ (db : List Application) (uid : Nat) (status : Option ApplicationStatus)
       (search : Option String) (is_archived : Bool) (skip limit : Nat),
      get_applications db uid status search is_archived skip limit
        = listSpec db uid status search is_archived skip limit)
    ∧ get_applications demoApps 1 none (some "goo") false 0 100 = [googleApp] :=
  ⟨fun db uid status search is_archived skip limit =>
    get_applications_eq_listSpec db uid status search is_archived skip limit,
   by decide⟩

end JobTracker
